import Mathlib

/-!
# Verification of the mongobackup dump pipeline (`src/main.py`)

This development gives a shallow embedding of the backup program: the BSON
document stream produced per collection (`dump_collection`), the per-run tar
archive assembly (`dump_database`), configuration loading from environment
variables (`get_config`) and the serverless entry point (`handler`).
Machine-level byte strings are lists of naturals below 256; fallible driver
calls are `Except` values supplied by an abstract database model.
-/

namespace MongoBackup

/-- A byte, as a natural number; wellformed values are below 256. -/
abbrev Byte := Nat

/-- Little-endian 4-byte rendering of a natural number (BSON int32 cell). -/
def natLE4 (n : Nat) : List Byte :=
  [n % 256, n / 256 % 256, n / 65536 % 256, n / 16777216 % 256]

/-- Little-endian 8-byte rendering of a natural number (BSON int64 cell). -/
def natLE8 (n : Nat) : List Byte :=
  [n % 256, n / 256 % 256, n / 65536 % 256, n / 16777216 % 256,
   n / 4294967296 % 256, n / 1099511627776 % 256,
   n / 281474976710656 % 256, n / 72057594037927936 % 256]

/-- Two's-complement 4-byte little-endian rendering of an integer. -/
def intLE4 (n : Int) : List Byte := natLE4 (n % 4294967296).toNat

/-- Two's-complement 8-byte little-endian rendering of an integer. -/
def intLE8 (n : Int) : List Byte := natLE8 (n % 18446744073709551616).toNat

/-- BSON element values, covering the scalar element types the dump can
contain: null (0x0A), boolean (0x08), int32 (0x10), int64 (0x12) and
string (0x02).  Strings carry their UTF-8 payload bytes. -/
inductive BVal where
  | vnull : BVal
  | vbool : Bool → BVal
  | vint32 : Int → BVal
  | vint64 : Int → BVal
  | vstr : List Byte → BVal
deriving DecidableEq

/-- A BSON document: ordered field names (cstring bytes) paired with values,
as iterated by the cursor and fed to `bson.BSON.encode`. -/
abbrev BDoc := List (List Byte × BVal)

/-- The BSON type tag of a value. -/
def tagOf : BVal → Byte
  | .vnull => 10
  | .vbool _ => 8
  | .vint32 _ => 16
  | .vint64 _ => 18
  | .vstr _ => 2

/-- Encoding of one value body, per the BSON specification. -/
def encodeVal : BVal → List Byte
  | .vnull => []
  | .vbool b => [if b then 1 else 0]
  | .vint32 n => intLE4 n
  | .vint64 n => intLE8 n
  | .vstr s => natLE4 (s.length + 1) ++ s ++ [0]

/-- Encoding of one element: type tag, cstring name, value body. -/
def encodeElem (name : List Byte) (v : BVal) : List Byte :=
  tagOf v :: (name ++ [0]) ++ encodeVal v

/-- Encoding of an element list. -/
def encodeElems : BDoc → List Byte
  | [] => []
  | (n, v) :: rest => encodeElem n v ++ encodeElems rest

/-- Embedding of `bson.BSON.encode`: total length (little-endian int32, counting itself
and the trailing 0x00), element list, terminator. -/
def encodeDoc (d : BDoc) : List Byte :=
  natLE4 ((encodeElems d).length + 5) ++ encodeElems d ++ [0]

/-- Read a 4-byte little-endian natural from the front of a byte stream. -/
def readNat4 : List Byte → Option (Nat × List Byte)
  | a :: b :: c :: d :: r => some (a + 256 * b + 65536 * c + 16777216 * d, r)
  | _ => none

/-- Read an 8-byte little-endian natural from the front of a byte stream. -/
def readNat8 : List Byte → Option (Nat × List Byte)
  | a :: b :: c :: d :: e :: f :: g :: h :: r =>
      some (a + 256 * b + 65536 * c + 16777216 * d + 4294967296 * e +
        1099511627776 * f + 281474976710656 * g + 72057594037927936 * h, r)
  | _ => none

/-- Read a zero-terminated cstring. -/
def readCString : List Byte → Option (List Byte × List Byte)
  | [] => none
  | 0 :: r => some ([], r)
  | b :: r =>
    match readCString r with
    | some (s, r2) => some (b :: s, r2)
    | none => none

/-- Split off exactly `n` bytes. -/
def takeN : Nat → List Byte → Option (List Byte × List Byte)
  | 0, bs => some ([], bs)
  | _ + 1, [] => none
  | n + 1, b :: bs =>
    match takeN n bs with
    | some (s, r) => some (b :: s, r)
    | none => none

/-- Reinterpret an unsigned `w`-bit value as a two's-complement integer. -/
def toSigned (w : Nat) (m : Nat) : Int :=
  if m < 2 ^ (w - 1) then (m : Int) else (m : Int) - 2 ^ w

/-- Decode one value body given its type tag. -/
def decodeVal (tag : Byte) (bs : List Byte) : Option (BVal × List Byte) :=
  if tag = 10 then some (.vnull, bs)
  else if tag = 8 then
    match bs with
    | b :: r => some (.vbool (b == 1), r)
    | [] => none
  else if tag = 16 then
    match readNat4 bs with
    | some (m, r) => some (.vint32 (toSigned 32 m), r)
    | none => none
  else if tag = 18 then
    match readNat8 bs with
    | some (m, r) => some (.vint64 (toSigned 64 m), r)
    | none => none
  else if tag = 2 then
    match readNat4 bs with
    | some (m, r) =>
      if m = 0 then none
      else
        match takeN (m - 1) r with
        | some (s, r2) =>
          match r2 with
          | 0 :: r3 => some (.vstr s, r3)
          | _ => none
        | none => none
    | none => none
  else none

/-- Decode an element list up to its 0x00 terminator.  `fuel` bounds the
number of elements; each decoded element consumes at least one byte, so the
remaining stream length is always sufficient fuel. -/
def decodeElems (fuel : Nat) (bs : List Byte) : Option (BDoc × List Byte) :=
  match bs with
  | [] => none
  | b :: r =>
    if b = 0 then some ([], r)
    else
      match fuel with
      | 0 => none
      | fuel' + 1 =>
        match readCString r with
        | some (name, r1) =>
          match decodeVal b r1 with
          | some (v, r2) =>
            match decodeElems fuel' r2 with
            | some (d, r3) => some ((name, v) :: d, r3)
            | none => none
          | none => none
        | none => none

/-- Decode one BSON document from the front of a stream. -/
def decodeDoc (bs : List Byte) : Option (BDoc × List Byte) :=
  match readNat4 bs with
  | some (_, r) => decodeElems r.length r
  | none => none

/-- Decode a concatenation of BSON documents; `fuel` bounds the number of
documents. -/
def decodeManyAux (fuel : Nat) (bs : List Byte) : Option (List BDoc) :=
  match bs with
  | [] => some []
  | b :: r =>
    match fuel with
    | 0 => none
    | fuel' + 1 =>
      match decodeDoc (b :: r) with
      | some (d, r2) =>
        match decodeManyAux fuel' r2 with
        | some ds => some (d :: ds)
        | none => none
      | none => none

/-- Decode a whole `.bson` artifact back into its list of documents. -/
def decodeStream (bs : List Byte) : Option (List BDoc) :=
  decodeManyAux bs.length bs

/-- Wellformed field name: nonzero bytes below 256 (a valid cstring). -/
def nameWf (n : List Byte) : Bool :=
  n.all fun b => b != 0 && decide (b < 256)

/-- Wellformed value: payload bytes are bytes, integers fit their width. -/
def valWf : BVal → Bool
  | .vnull => true
  | .vbool _ => true
  | .vint32 n => decide (-2147483648 ≤ n) && decide (n < 2147483648)
  | .vint64 n => decide (-9223372036854775808 ≤ n) && decide (n < 9223372036854775808)
  | .vstr s => decide (s.length + 1 < 4294967296) && s.all fun b => decide (b < 256)

/-- Wellformed document: every field has a wellformed name and value. -/
def docWf (d : BDoc) : Bool :=
  d.all fun e => nameWf e.1 && valWf e.2

/-! ## The program model: database handle, metadata, tar entries -/

/-- Errors raised by driver calls or the sink; carried as messages, matching
Python exceptions which the program re-raises unchanged. -/
abbrev Err := String

/-- One structured log line, as printed by `json.dumps({...})` in `main.py`. -/
structure LogLine where
  msg : String
  level : String
  stream_name : String
deriving DecidableEq

/-- The `info` sub-document of one `listCollections` batch entry; it may or
may not carry a `uuid` key. -/
structure CollIdent where
  uuid : Option (List Byte)
deriving DecidableEq

/-- One entry of `collection_info["cursor"]["firstBatch"]`: a collection
name plus an optional `info` sub-document. -/
structure CollInfo where
  name : String
  info : Option CollIdent
deriving DecidableEq

/-- The scan over `firstBatch` in `dump_collection`: the first entry whose
name matches and whose `info` carries a `uuid` supplies the identifier;
otherwise the identifier stays `None`. -/
def extractUuid (cname : String) : List CollInfo → Option (List Byte)
  | [] => none
  | coll :: rest =>
    if coll.name = cname then
      match coll.info with
      | some ident =>
        match ident.uuid with
        | some u => some u
        | none => extractUuid cname rest
      | none => extractUuid cname rest
    else extractUuid cname rest

/-- The uuid resolution step of `dump_collection`: `None` when the command
result has no `cursor` key, otherwise the scan over `firstBatch`. -/
def uuidFrom (cname : String) : Option (List CollInfo) → Option (List Byte)
  | some firstBatch => extractUuid cname firstBatch
  | none => none

/-- The metadata document assembled in `dump_collection`, with its five keys
in insertion order. -/
structure Metadata where
  indexes : List (List (String × BVal))
  uuid : Option (List Byte)
  collectionName : String
  type : String
  options : List (String × BVal)
deriving DecidableEq

/-- Embedding of `index_info.pop("ns", None)`: drop the namespace key of one index
descriptor (dict keys are unique, so a filter is faithful). -/
def stripNs (d : List (String × BVal)) : List (String × BVal) :=
  d.filter fun p => p.1 != "ns"

/-- JSON string literal (payload assumed escape-free in this model). -/
def jstr (s : String) : String := "\"" ++ s ++ "\""

/-- Canonical extended-JSON rendering of a scalar value, in the style of
`bson.json_util.dumps` with `CANONICAL_JSON_OPTIONS` (type-tagged numbers). -/
def renderBVal : BVal → String
  | .vnull => "null"
  | .vbool b => if b then "true" else "false"
  | .vint32 n => "\x7b\"$numberInt\": " ++ jstr (toString n) ++ "\x7d"
  | .vint64 n => "\x7b\"$numberLong\": " ++ jstr (toString n) ++ "\x7d"
  | .vstr s => jstr (toString s)

/-- Rendering of a JSON object given as an association list. -/
def renderObj (l : List (String × BVal)) : String :=
  "\x7b" ++ String.intercalate ", " (l.map fun p => jstr p.1 ++ ": " ++ renderBVal p.2) ++ "\x7d"

/-- Rendering of the `uuid` value: an explicit `null` when absent, a
type-tagged binary value when present. -/
def renderUuid : Option (List Byte) → String
  | none => "null"
  | some u => "\x7b\"$binary\": " ++ jstr (toString u) ++ "\x7d"

/-- Rendering of the whole metadata document, keys in insertion order. -/
def renderMetadata (m : Metadata) : String :=
  "\x7b\"indexes\": [" ++ String.intercalate ", " (m.indexes.map renderObj) ++ "]" ++
    ", \"uuid\": " ++ renderUuid m.uuid ++
    ", \"collectionName\": " ++ jstr m.collectionName ++
    ", \"type\": " ++ jstr m.type ++
    ", \"options\": " ++ renderObj m.options ++ "\x7d"

/-- Bytes of the encoded metadata text, modelled as character code points;
this coincides with UTF-8 on the ASCII text the serializer emits. -/
def strBytes (s : String) : List Byte :=
  s.data.map Char.toNat

/-- One tar entry: the `TarInfo` name and size declared before the body is
streamed, plus the body itself. -/
structure TarEntry where
  name : String
  size : Nat
  body : List Byte
deriving DecidableEq

/-- The abstract handle to one database: the collection listing and, per
collection name, the four driver calls `dump_collection` performs.  Each
call either yields its result or raises. -/
structure DBContent where
  collections : List String
  find : String → Except Err (List BDoc)
  listIndexes : String → Except Err (List (List (String × BVal)))
  options : String → Except Err (List (String × BVal))
  listCollCmd : String → Except Err (Option (List CollInfo))

/-- Name of the data entry for one collection. -/
def bsonEntryName (dbName cname : String) : String :=
  "dump/" ++ dbName ++ "/" ++ cname ++ ".bson"

/-- Name of the metadata entry for one collection. -/
def metaEntryName (dbName cname : String) : String :=
  "dump/" ++ dbName ++ "/" ++ cname ++ ".metadata.json"

def startLogLine (c : String) : LogLine :=
  ⟨"Starting dump of collection " ++ c ++ ".", "INFO", "main"⟩

def okLogLine (c : String) : LogLine :=
  ⟨"Successfully dumped collection " ++ c ++ ".", "INFO", "main"⟩

def errLogLine (c : String) (e : Err) : LogLine :=
  ⟨"Error dumping collection " ++ c ++ ": " ++ e, "ERROR", "main"⟩

/-- Result of dumping one collection: the tar entries actually added (in
order), the exception re-raised if any step failed, and the log lines. -/
structure CollDumpResult where
  entries : List TarEntry
  err : Option Err
  logs : List LogLine
deriving DecidableEq

/-- Embedding of `dump_collection` from `main.py`: encode every cursor document into the
data buffer, add the `.bson` entry with its size declared first, then list
indexes (dropping `ns`), fetch options, run `listCollections` to find the
uuid, assemble the metadata document, and add the `.metadata.json` entry.
Any exception is logged with the collection name and re-raised; note the
`.bson` entry is already in the tar when a later step fails. -/
def dump_collection (cname : String) (dbName : String) (c : DBContent) : CollDumpResult :=
  match c.find cname with
  | .error e => ⟨[], some e, [startLogLine cname, errLogLine cname e]⟩
  | .ok docs =>
    let bsonBody := (docs.map encodeDoc).flatten
    let bsonEntry : TarEntry := ⟨bsonEntryName dbName cname, bsonBody.length, bsonBody⟩
    match c.listIndexes cname with
    | .error e => ⟨[bsonEntry], some e, [startLogLine cname, errLogLine cname e]⟩
    | .ok idx =>
      match c.options cname with
      | .error e => ⟨[bsonEntry], some e, [startLogLine cname, errLogLine cname e]⟩
      | .ok opts =>
        match c.listCollCmd cname with
        | .error e => ⟨[bsonEntry], some e, [startLogLine cname, errLogLine cname e]⟩
        | .ok cmdRes =>
          let metadata : Metadata := ⟨idx.map stripNs, uuidFrom cname cmdRes, cname, "collection", opts⟩
          let mdBody := strBytes (renderMetadata metadata)
          let mdEntry : TarEntry := ⟨metaEntryName dbName cname, mdBody.length, mdBody⟩
          ⟨[bsonEntry, mdEntry], none, [startLogLine cname, okLogLine cname]⟩

/-- The per-collection loop of `dump_database`: dump each collection in
listing order, stopping at (and re-raising) the first failure. -/
def dumpAll (dbName : String) (c : DBContent) : List String → List TarEntry × Option Err × List LogLine
  | [] => ([], none, [])
  | n :: rest =>
    let r := dump_collection n dbName c
    match r.err with
    | some e => (r.entries, some e, r.logs)
    | none =>
      let r2 := dumpAll dbName c rest
      (r.entries ++ r2.1, r2.2.1, r.logs ++ r2.2.2)

/-! ## Orchestrator, configuration, entry point -/

/-- Does `s` start with `p`?  (Over the underlying character lists.) -/
def strStartsWith (s p : String) : Bool := p.data.isPrefixOf s.data

/-- Does `s` end with `p`?  (Over the underlying character lists.) -/
def strEndsWith (s p : String) : Bool := p.data.isSuffixOf s.data

/-- Embedding of `os.path.join(a, b)` for the two-argument calls the program makes. -/
def path_join (a b : String) : String :=
  if strStartsWith b "/" then b
  else if a = "" then b
  else if strEndsWith a "/" then a ++ b
  else a ++ "/" ++ b

/-- A UTC wall-clock instant as produced by `datetime.utcnow()`. -/
structure UtcTime where
  year : Nat
  month : Nat
  day : Nat
  hour : Nat
  minute : Nat
  second : Nat
deriving DecidableEq

/-- Zero-padded two-digit field (`%m`, `%d`, `%H`, `%M`, `%S`). -/
def pad2 (n : Nat) : String :=
  if n < 10 then "0" ++ toString n else toString n

/-- Zero-padded four-digit year (`%Y`). -/
def pad4 (n : Nat) : String :=
  if n < 10 then "000" ++ toString n
  else if n < 100 then "00" ++ toString n
  else if n < 1000 then "0" ++ toString n
  else toString n

/-- Embedding of `strftime("%Y_%m_%d_%H_%M_%S")` on a UTC instant. -/
def timestampOf (t : UtcTime) : String :=
  pad4 t.year ++ "_" ++ pad2 t.month ++ "_" ++ pad2 t.day ++ "_" ++
    pad2 t.hour ++ "_" ++ pad2 t.minute ++ "_" ++ pad2 t.second

/-- The mode string the program passes to `tarfile.open` (line 209). -/
def tar_open_mode : String := "w"

/-- CPython `tarfile.open` write-mode table: the compression applied to the
stream for each supported mode string, `none` meaning an uncompressed tar. -/
def tarfileCompression (mode : String) : Option String :=
  if mode = "w:gz" then some "gz"
  else if mode = "w:bz2" then some "bz2"
  else if mode = "w:xz" then some "xz"
  else none

/-- The archive file name `dump_database` builds for a run. -/
def archivePathOf (dump_dir dbName : String) (now : UtcTime) : String :=
  path_join dump_dir (dbName ++ "_backup_" ++ timestampOf now ++ ".tar.gz")

/-- The observable outcome of one `dump_database` run: the archive path and
open mode, the tar entries added in order, whether the archive trailer was
written (`with` closes the tar only on normal exit), the re-raised
exception if any, the log lines, and the files/directories the run created
on the filesystem. -/
structure RunResult where
  archivePath : String
  mode : String
  entries : List TarEntry
  finalized : Bool
  err : Option Err
  logs : List LogLine
  filesCreated : List String
  dirsCreated : List String

/-- The immutable configuration triple returned by `get_config`. -/
structure Config where
  mongo__url : String
  mongo__db_name : String
  dump__dir : String
deriving DecidableEq

/-- The process environment: a lookup from variable name to its value,
`none` when the variable is unset. -/
abbrev Env := String → Option String

/-- Embedding of `get_config` from `main.py`: read the three required variables with
`os.environ.get(_, None)`; if any is `None`, log and raise; otherwise
return exactly the retrieved triple. -/
def get_config (env : Env) : Except Err Config :=
  match env "MONGO__URL", env "MONGO__DB_NAME", env "DUMP__DIR" with
  | some u, some d, some dir => .ok ⟨u, d, dir⟩
  | _, _, _ => .error "Not all of the required env vars were set."

/-- The world a run connects to: `MongoClient(mongo_url)[db_name]`
determines the database contents reachable from a connection endpoint and
database name. -/
abbrev World := String → String → DBContent

/-- Embedding of `dump_database` from `main.py`: connect, build the timestamped archive
path under the dump directory, create the dump directory, open the tar with
mode `"w"`, list the collections and dump each in listing order.  On any
exception the error is logged and re-raised and the tar trailer is never
written; the only file the run creates is the archive itself. -/
def dump_database (cfg : Config) (world : World) (now : UtcTime) : RunResult :=
  let dbName := cfg.mongo__db_name
  let content := world cfg.mongo__url dbName
  let path := archivePathOf cfg.dump__dir dbName now
  let startLog : LogLine :=
    ⟨"Starting database dump for database " ++ dbName ++ ".", "INFO", "main"⟩
  let r := dumpAll dbName content content.collections
  let tailLogs : List LogLine :=
    match r.2.1 with
    | none => [⟨"Successfully completed database dump for database " ++ dbName ++ ".", "INFO", "main"⟩]
    | some e => [⟨"Error during database dump for database " ++ dbName ++ ": " ++ e, "ERROR", "main"⟩]
  { archivePath := path
    mode := tar_open_mode
    entries := r.1
    finalized := r.2.1.isNone
    err := r.2.1
    logs := startLog :: r.2.2 ++ tailLogs
    filesCreated := [path]
    dirsCreated := [cfg.dump__dir] }

/-- The `{statusCode, body}` dictionary the handler returns; `body` is the
object `{"msg": msg}`. -/
structure HandlerResponse where
  statusCode : Nat
  msg : String
deriving DecidableEq

/-- Embedding of `handler` from `main.py`: run `dump_database(get_config())`; return
200/OK on success and 500/Internal Server Error on any exception, never
letting the exception escape. -/
def handler (env : Env) (world : World) (now : UtcTime) : HandlerResponse :=
  match get_config env with
  | .error _ => ⟨500, "Internal Server Error"⟩
  | .ok cfg =>
    match (dump_database cfg world now).err with
    | some _ => ⟨500, "Internal Server Error"⟩
    | none => ⟨200, "OK"⟩

/-! ## Decoder correctness: the data artifact decodes back to the cursor
documents -/

theorem readNat4_natLE4 (n : Nat) (rest : List Byte) :
    readNat4 (natLE4 n ++ rest) = some (n % 4294967296, rest) := by
  simp only [natLE4, readNat4, List.cons_append, List.nil_append,
    Option.some.injEq, Prod.mk.injEq]
  exact ⟨by omega, trivial⟩

theorem readNat8_natLE8 (n : Nat) (rest : List Byte) :
    readNat8 (natLE8 n ++ rest) = some (n % 18446744073709551616, rest) := by
  simp only [natLE8, readNat8, List.cons_append, List.nil_append,
    Option.some.injEq, Prod.mk.injEq]
  exact ⟨by omega, trivial⟩

theorem toSigned_intLE4 (n : Int) (h1 : -2147483648 ≤ n) (h2 : n < 2147483648) :
    toSigned 32 ((n % 4294967296).toNat) = n := by
  unfold toSigned
  split <;> omega

theorem toSigned_intLE8 (n : Int) (h1 : -9223372036854775808 ≤ n)
    (h2 : n < 9223372036854775808) :
    toSigned 64 ((n % 18446744073709551616).toNat) = n := by
  unfold toSigned
  split <;> omega

theorem takeN_append (xs rest : List Byte) :
    takeN xs.length (xs ++ rest) = some (xs, rest) := by
  induction xs with
  | nil => rfl
  | cons b bs ih => simp [takeN, ih]

theorem readCString_append (name rest : List Byte) (h : ∀ b ∈ name, b ≠ 0) :
    readCString (name ++ 0 :: rest) = some (name, rest) := by
  induction name with
  | nil => rfl
  | cons b bs ih =>
    have hb : b ≠ 0 := h b (by simp)
    cases b with
    | zero => exact absurd rfl hb
    | succ k =>
      have ih2 := ih fun x hx => h x (by simp [hx])
      simp [readCString, ih2]

theorem decodeVal_encodeVal (v : BVal) (rest : List Byte) (h : valWf v = true) :
    decodeVal (tagOf v) (encodeVal v ++ rest) = some (v, rest) := by
  cases v with
  | vnull => simp [decodeVal, tagOf, encodeVal]
  | vbool b => cases b <;> simp [decodeVal, tagOf, encodeVal]
  | vint32 n =>
    simp only [valWf, Bool.and_eq_true, decide_eq_true_eq] at h
    have hm : (n % 4294967296).toNat < 4294967296 := by omega
    simp only [tagOf, encodeVal, intLE4, decodeVal, readNat4_natLE4]
    norm_num
    rw [Nat.mod_eq_of_lt hm, toSigned_intLE4 n h.1 h.2]
  | vint64 n =>
    simp only [valWf, Bool.and_eq_true, decide_eq_true_eq] at h
    have hm : (n % 18446744073709551616).toNat < 18446744073709551616 := by omega
    simp only [tagOf, encodeVal, intLE8, decodeVal, readNat8_natLE8]
    norm_num
    rw [Nat.mod_eq_of_lt hm, toSigned_intLE8 n h.1 h.2]
  | vstr s =>
    simp only [valWf, Bool.and_eq_true, decide_eq_true_eq] at h
    have hshape : encodeVal (.vstr s) ++ rest
        = natLE4 (s.length + 1) ++ (s ++ 0 :: rest) := by
      simp [encodeVal]
    rw [hshape]
    simp only [decodeVal, tagOf, readNat4_natLE4]
    norm_num
    rw [Nat.mod_eq_of_lt h.1]
    have h1 : s.length + 1 ≠ 0 := by omega
    have h2 : s.length + 1 - 1 = s.length := by omega
    refine ⟨h1, ?_⟩
    rw [h2, takeN_append]

theorem tagOf_ne_zero (v : BVal) : tagOf v ≠ 0 := by
  cases v <;> simp [tagOf]

theorem decodeElems_encodeElems (d : BDoc) :
    ∀ (rest : List Byte), docWf d = true → ∀ fuel, d.length ≤ fuel →
      decodeElems fuel (encodeElems d ++ 0 :: rest) = some (d, rest) := by
  induction d with
  | nil =>
    intro rest _ fuel _
    cases fuel <;> rfl
  | cons e d' ih =>
    obtain ⟨n, v⟩ := e
    intro rest h fuel hf
    simp only [docWf, List.all_cons, Bool.and_eq_true] at h
    obtain ⟨⟨hn, hv⟩, hd'⟩ := h
    cases fuel with
    | zero => simp at hf
    | succ f =>
      have hshape : encodeElems ((n, v) :: d') ++ 0 :: rest
          = tagOf v :: (n ++ 0 :: (encodeVal v ++ (encodeElems d' ++ 0 :: rest))) := by
        simp [encodeElems, encodeElem]
      rw [hshape]
      have hzero : ∀ b ∈ n, b ≠ 0 := by
        intro b hb
        have := List.all_eq_true.mp hn b hb
        simp at this
        exact this.1
      simp only [decodeElems]
      rw [if_neg (tagOf_ne_zero v)]
      simp only [readCString_append n _ hzero, decodeVal_encodeVal v _ hv,
        ih rest hd' f (by simpa using hf)]

theorem length_le_encodeElems (d : BDoc) : d.length ≤ (encodeElems d).length := by
  induction d with
  | nil => simp [encodeElems]
  | cons e d' ih =>
    obtain ⟨n, v⟩ := e
    simp only [encodeElems, encodeElem, List.length_append, List.length_cons]
    omega

theorem decodeDoc_encodeDoc (d : BDoc) (rest : List Byte) (h : docWf d = true) :
    decodeDoc (encodeDoc d ++ rest) = some (d, rest) := by
  have hshape : encodeDoc d ++ rest
      = natLE4 ((encodeElems d).length + 5) ++ (encodeElems d ++ 0 :: rest) := by
    simp [encodeDoc]
  rw [hshape]
  simp only [decodeDoc, readNat4_natLE4]
  have hlen : d.length ≤ (encodeElems d ++ 0 :: rest).length := by
    have := length_le_encodeElems d
    simp only [List.length_append, List.length_cons]
    omega
  exact decodeElems_encodeElems d rest h _ hlen

theorem encodeDoc_length (d : BDoc) :
    (encodeDoc d).length = (encodeElems d).length + 5 := by
  simp [encodeDoc, natLE4]

theorem decodeManyAux_encode (docs : List BDoc)
    (h : ∀ d ∈ docs, docWf d = true) :
    ∀ fuel, docs.length ≤ fuel →
      decodeManyAux fuel (docs.map encodeDoc).flatten = some docs := by
  induction docs with
  | nil => intro fuel _; cases fuel <;> rfl
  | cons d ds ih =>
    intro fuel hf
    cases fuel with
    | zero => simp at hf
    | succ f =>
      have h5 : (encodeDoc d).length = (encodeElems d).length + 5 := encodeDoc_length d
      rcases he : encodeDoc d with _ | ⟨b, t⟩
      · rw [he] at h5; simp at h5
      · have hflat : ((d :: ds).map encodeDoc).flatten
            = b :: (t ++ (ds.map encodeDoc).flatten) := by
          simp [he]
        rw [hflat]
        have hdd : decodeDoc (b :: (t ++ (ds.map encodeDoc).flatten))
            = some (d, (ds.map encodeDoc).flatten) := by
          have hb : b :: (t ++ (ds.map encodeDoc).flatten)
              = encodeDoc d ++ (ds.map encodeDoc).flatten := by simp [he]
          rw [hb]
          exact decodeDoc_encodeDoc d _ (h d (by simp))
        simp only [decodeManyAux, hdd]
        rw [ih (fun x hx => h x (by simp [hx])) f (by simpa using hf)]

theorem length_le_flatten_encode (docs : List BDoc) :
    docs.length ≤ ((docs.map encodeDoc).flatten).length := by
  induction docs with
  | nil => simp
  | cons d ds ih =>
    simp only [List.map_cons, List.flatten_cons, List.length_append, List.length_cons]
    have := encodeDoc_length d
    omega

/-- Main decoder-correctness fact: the concatenation of the encodings of a
wellformed document list decodes back to exactly that list, in order. -/
theorem decodeStream_encode (docs : List BDoc)
    (h : ∀ d ∈ docs, docWf d = true) :
    decodeStream ((docs.map encodeDoc).flatten) = some docs := by
  unfold decodeStream
  exact decodeManyAux_encode docs h _ (length_le_flatten_encode docs)

/-! ## Structural facts about one run -/

theorem dump_database_entries (cfg : Config) (world : World) (now : UtcTime) :
    (dump_database cfg world now).entries
      = (dumpAll cfg.mongo__db_name (world cfg.mongo__url cfg.mongo__db_name)
          (world cfg.mongo__url cfg.mongo__db_name).collections).1 := rfl

theorem dump_database_err (cfg : Config) (world : World) (now : UtcTime) :
    (dump_database cfg world now).err
      = (dumpAll cfg.mongo__db_name (world cfg.mongo__url cfg.mongo__db_name)
          (world cfg.mongo__url cfg.mongo__db_name).collections).2.1 := rfl

theorem dump_database_finalized (cfg : Config) (world : World) (now : UtcTime) :
    (dump_database cfg world now).finalized
      = ((dump_database cfg world now).err).isNone := rfl

theorem dump_database_filesCreated (cfg : Config) (world : World) (now : UtcTime) :
    (dump_database cfg world now).filesCreated
      = [(dump_database cfg world now).archivePath] := rfl

theorem dump_collection_sizes (cname dbName : String) (c : DBContent) :
    ∀ e ∈ (dump_collection cname dbName c).entries, e.size = e.body.length := by
  intro e he
  unfold dump_collection at he
  rcases hfind : c.find cname with e1 | docs <;> rw [hfind] at he
  · simp only [List.not_mem_nil] at he
  · rcases hidx : c.listIndexes cname with e1 | idx <;> rw [hidx] at he
    · simp only [List.mem_cons, List.not_mem_nil, or_false] at he
      subst he
      rfl
    · rcases hopt : c.options cname with e1 | opts <;> rw [hopt] at he
      · simp only [List.mem_cons, List.not_mem_nil, or_false] at he
        subst he
        rfl
      · rcases hcmd : c.listCollCmd cname with e1 | cmdRes <;> rw [hcmd] at he
        · simp only [List.mem_cons, List.not_mem_nil, or_false] at he
          subst he
          rfl
        · simp only [List.mem_cons, List.not_mem_nil, or_false] at he
          rcases he with he | he <;> subst he <;> rfl

theorem dump_collection_names (cname dbName : String) (c : DBContent) :
    ∀ e ∈ (dump_collection cname dbName c).entries,
      e.name = bsonEntryName dbName cname ∨ e.name = metaEntryName dbName cname := by
  intro e he
  unfold dump_collection at he
  rcases hfind : c.find cname with e1 | docs <;> rw [hfind] at he
  · simp only [List.not_mem_nil] at he
  · rcases hidx : c.listIndexes cname with e1 | idx <;> rw [hidx] at he
    · simp only [List.mem_cons, List.not_mem_nil, or_false] at he
      subst he
      exact Or.inl rfl
    · rcases hopt : c.options cname with e1 | opts <;> rw [hopt] at he
      · simp only [List.mem_cons, List.not_mem_nil, or_false] at he
        subst he
        exact Or.inl rfl
      · rcases hcmd : c.listCollCmd cname with e1 | cmdRes <;> rw [hcmd] at he
        · simp only [List.mem_cons, List.not_mem_nil, or_false] at he
          subst he
          exact Or.inl rfl
        · simp only [List.mem_cons, List.not_mem_nil, or_false] at he
          rcases he with he | he <;> subst he
          · exact Or.inl rfl
          · exact Or.inr rfl

theorem dump_collection_cases (cname dbName : String) (c : DBContent) :
    ((dump_collection cname dbName c).err = none
      ∧ (dump_collection cname dbName c).entries.length = 2
      ∧ (dump_collection cname dbName c).logs = [startLogLine cname, okLogLine cname])
    ∨ ∃ e, (dump_collection cname dbName c).err = some e
      ∧ (dump_collection cname dbName c).logs = [startLogLine cname, errLogLine cname e] := by
  unfold dump_collection
  rcases c.find cname with e1 | docs
  · exact Or.inr ⟨e1, rfl, rfl⟩
  · rcases c.listIndexes cname with e1 | idx
    · exact Or.inr ⟨e1, rfl, rfl⟩
    · rcases c.options cname with e1 | opts
      · exact Or.inr ⟨e1, rfl, rfl⟩
      · rcases c.listCollCmd cname with e1 | cmdRes
        · exact Or.inr ⟨e1, rfl, rfl⟩
        · exact Or.inl ⟨rfl, rfl, rfl⟩

theorem dump_collection_ok_two (cname dbName : String) (c : DBContent)
    (h : (dump_collection cname dbName c).err = none) :
    (dump_collection cname dbName c).entries.length = 2 := by
  rcases dump_collection_cases cname dbName c with ⟨_, h2, _⟩ | ⟨e, he, _⟩
  · exact h2
  · rw [h] at he
    cases he

theorem dump_collection_err_log (cname dbName : String) (c : DBContent) (e : Err)
    (h : (dump_collection cname dbName c).err = some e) :
    (dump_collection cname dbName c).logs = [startLogLine cname, errLogLine cname e] := by
  rcases dump_collection_cases cname dbName c with ⟨h1, _, _⟩ | ⟨e2, he2, hl⟩
  · rw [h] at h1
    cases h1
  · rw [h] at he2
    cases he2
    exact hl

theorem dumpAll_cons_ok (dbName : String) (c : DBContent) (n : String)
    (rest : List String) (h : (dump_collection n dbName c).err = none) :
    dumpAll dbName c (n :: rest)
      = ((dump_collection n dbName c).entries ++ (dumpAll dbName c rest).1,
         (dumpAll dbName c rest).2.1,
         (dump_collection n dbName c).logs ++ (dumpAll dbName c rest).2.2) := by
  simp only [dumpAll, h]

theorem dumpAll_cons_err (dbName : String) (c : DBContent) (n : String)
    (rest : List String) (e : Err) (h : (dump_collection n dbName c).err = some e) :
    dumpAll dbName c (n :: rest)
      = ((dump_collection n dbName c).entries, some e, (dump_collection n dbName c).logs) := by
  simp only [dumpAll, h]

theorem dumpAll_ok (dbName : String) (c : DBContent) (l : List String)
    (h : (dumpAll dbName c l).2.1 = none) :
    (dumpAll dbName c l).1 = (l.map fun n => (dump_collection n dbName c).entries).flatten
    ∧ ∀ n ∈ l, (dump_collection n dbName c).err = none := by
  induction l with
  | nil => simp [dumpAll]
  | cons n rest ih =>
    rcases herr : (dump_collection n dbName c).err with _ | e
    · rw [dumpAll_cons_ok dbName c n rest herr] at h ⊢
      obtain ⟨h1, h2⟩ := ih h
      constructor
      · show (dump_collection n dbName c).entries ++ (dumpAll dbName c rest).1 = _
        rw [h1]
        simp
      · intro m hm
        rcases List.mem_cons.mp hm with hm | hm
        · subst hm
          exact herr
        · exact h2 m hm
    · rw [dumpAll_cons_err dbName c n rest e herr] at h
      exact Option.noConfusion h

theorem dumpAll_fail (dbName : String) (c : DBContent) (pre : List String)
    (cname : String) (post : List String) (e : Err)
    (hpre : ∀ p ∈ pre, (dump_collection p dbName c).err = none)
    (hfail : (dump_collection cname dbName c).err = some e) :
    (dumpAll dbName c (pre ++ cname :: post)).2.1 = some e
    ∧ (dumpAll dbName c (pre ++ cname :: post)).1
        = (pre.map fun p => (dump_collection p dbName c).entries).flatten
          ++ (dump_collection cname dbName c).entries
    ∧ errLogLine cname e ∈ (dumpAll dbName c (pre ++ cname :: post)).2.2 := by
  induction pre with
  | nil =>
    rw [List.nil_append, dumpAll_cons_err dbName c cname post e hfail]
    refine ⟨rfl, by simp, ?_⟩
    show errLogLine cname e ∈ (dump_collection cname dbName c).logs
    rw [dump_collection_err_log cname dbName c e hfail]
    simp
  | cons p ps ih =>
    have hp : (dump_collection p dbName c).err = none := hpre p (by simp)
    have ihr := ih fun x hx => hpre x (by simp [hx])
    rw [List.cons_append, dumpAll_cons_ok dbName c p (ps ++ cname :: post) hp]
    refine ⟨ihr.1, ?_, ?_⟩
    · show (dump_collection p dbName c).entries ++ (dumpAll dbName c (ps ++ cname :: post)).1 = _
      rw [ihr.2.1]
      simp
    · show errLogLine cname e ∈ (dump_collection p dbName c).logs ++ (dumpAll dbName c (ps ++ cname :: post)).2.2
      exact List.mem_append_right _ ihr.2.2

theorem dumpAll_entry_names (dbName : String) (c : DBContent) (l : List String) :
    ∀ e ∈ (dumpAll dbName c l).1,
      ∃ n ∈ l, e.name = bsonEntryName dbName n ∨ e.name = metaEntryName dbName n := by
  induction l with
  | nil => simp [dumpAll]
  | cons n rest ih =>
    intro e he
    rcases herr : (dump_collection n dbName c).err with _ | e2
    · rw [dumpAll_cons_ok dbName c n rest herr] at he
      rcases List.mem_append.mp he with he | he
      · exact ⟨n, by simp, dump_collection_names n dbName c e he⟩
      · obtain ⟨m, hm, hname⟩ := ih e he
        exact ⟨m, by simp [hm], hname⟩
    · rw [dumpAll_cons_err dbName c n rest e2 herr] at he
      exact ⟨n, by simp, dump_collection_names n dbName c e he⟩

theorem flatten_length_two (l : List String) (f : String → List TarEntry)
    (h : ∀ n ∈ l, (f n).length = 2) :
    ((l.map f).flatten).length = 2 * l.length := by
  induction l with
  | nil => simp
  | cons n rest ih =>
    simp only [List.map_cons, List.flatten_cons, List.length_append, List.length_cons]
    rw [h n (by simp), ih fun m hm => h m (by simp [hm])]
    omega

theorem extractUuid_eq_none_iff (cname : String) (l : List CollInfo) :
    extractUuid cname l = none ↔
      ∀ ci ∈ l, ci.name = cname → ∀ ident, ci.info = some ident → ident.uuid = none := by
  induction l with
  | nil => simp [extractUuid]
  | cons ci rest ih =>
    by_cases hn : ci.name = cname
    · rcases hinfo : ci.info with _ | ident
      · simp [extractUuid, hn, hinfo, ih]
      · rcases hu : ident.uuid with _ | u
        · simp only [extractUuid, hn, if_true, hinfo, hu, ih]
          constructor
          · intro h
            intro x hx
            rcases List.mem_cons.mp hx with hx | hx
            · subst hx
              intro _ ident2 hident2
              rw [hinfo] at hident2
              cases hident2
              exact hu
            · exact h x hx
          · intro h x hx
            exact h x (by simp [hx])
        · simp only [extractUuid, hn, if_true, hinfo, hu]
          constructor
          · intro h
            cases h
          · intro h
            have := h ci (by simp) hn ident hinfo
            rw [hu] at this
            cases this
    · simp only [extractUuid, hn, if_false, ih]
      constructor
      · intro h x hx
        rcases List.mem_cons.mp hx with hx | hx
        · subst hx
          intro hc
          exact absurd hc hn
        · exact h x hx
      · intro h x hx
        exact h x (by simp [hx])

/-! ## Concrete fixtures used by witnesses and counterexamples -/

/-- Two small cursor documents used in witness runs. -/
def demoDocs : List BDoc :=
  [[([97], BVal.vint32 5)], [([104, 105], BVal.vstr [111, 107]), ([98], BVal.vbool true)]]

/-- A database with one collection `orders` whose driver calls all succeed. -/
def demoContent : DBContent where
  collections := ["orders"]
  find := fun _ => .ok demoDocs
  listIndexes := fun _ => .ok []
  options := fun _ => .ok []
  listCollCmd := fun _ => .ok none

def demoWorld : World := fun _ _ => demoContent

def demoCfg : Config := ⟨"mongodb://localhost:27017", "shop", "out"⟩

def demoNow : UtcTime := ⟨2024, 1, 2, 3, 4, 5⟩

/-- A database where listing the indexes of collection `beta` raises. -/
def failContent : DBContent where
  collections := ["alpha", "beta", "gamma"]
  find := fun _ => .ok demoDocs
  listIndexes := fun n => if n = "beta" then .error "boom" else .ok []
  options := fun _ => .ok []
  listCollCmd := fun _ => .ok none

def failWorld : World := fun _ _ => failContent

/-- Index descriptors (one index, carrying an `ns` field) for the metadata
fixture. -/
def metaIdx : List (List (String × BVal)) :=
  [[("v", BVal.vint32 2), ("name", BVal.vstr [101, 49]), ("ns", BVal.vstr [115])]]

/-- Creation options for the metadata fixture. -/
def metaOpts : List (String × BVal) := [("capped", BVal.vbool true)]

/-- A `listCollections` first batch whose first entry has no identity info
and whose second entry carries the uuid. -/
def metaBatch : List CollInfo := [⟨"other", none⟩, ⟨"users", some ⟨some [1, 2, 3]⟩⟩]

/-- A database with one collection carrying an index with an `ns` field,
creation options, and a `listCollections` identity with a uuid. -/
def metaContent : DBContent where
  collections := ["users"]
  find := fun _ => .ok []
  listIndexes := fun _ => .ok metaIdx
  options := fun _ => .ok metaOpts
  listCollCmd := fun _ => .ok (some metaBatch)

/-- An environment with all three required variables set. -/
def envFull : Env := fun k =>
  if k = "MONGO__URL" then some "mongodb://localhost:27017"
  else if k = "MONGO__DB_NAME" then some "shop"
  else if k = "DUMP__DIR" then some "out"
  else none

/-- An environment missing `MONGO__DB_NAME`. -/
def envMissingDb : Env := fun k =>
  if k = "MONGO__URL" then some "mongodb://localhost:27017"
  else if k = "DUMP__DIR" then some "out"
  else none

/-- An environment where every variable is set to the empty string. -/
def envEmptyVals : Env := fun _ => some ""

theorem dumpAll_sizes (dbName : String) (c : DBContent) (l : List String) :
    ∀ e ∈ (dumpAll dbName c l).1, e.size = e.body.length := by
  induction l with
  | nil => simp [dumpAll]
  | cons n rest ih =>
    intro e he
    rcases herr : (dump_collection n dbName c).err with _ | e2
    · rw [dumpAll_cons_ok dbName c n rest herr] at he
      rcases List.mem_append.mp he with he | he
      · exact dump_collection_sizes n dbName c e he
      · exact ih e he
    · rw [dumpAll_cons_err dbName c n rest e2 herr] at he
      exact dump_collection_sizes n dbName c e he

/-! ## The claims -/

/-- C7: the configuration loader fails, substituting no defaults, whenever
any of the connection endpoint, database name or output directory is unset in
the environment, and for every environment where all three are set it returns
exactly that triple unchanged.  (The spec's `ConfigurationError` is realised
by the `RuntimeError` message the code raises.) -/
theorem c7_config_loader_contract (env : Env) :
    ((env "MONGO__URL" = none ∨ env "MONGO__DB_NAME" = none ∨ env "DUMP__DIR" = none) →
      get_config env = .error "Not all of the required env vars were set.")
    ∧ ∀ u d dir, env "MONGO__URL" = some u → env "MONGO__DB_NAME" = some d →
        env "DUMP__DIR" = some dir → get_config env = .ok ⟨u, d, dir⟩ := by
  constructor
  · intro h
    unfold get_config
    rcases hu : env "MONGO__URL" with _ | u
    · rfl
    · rcases hd : env "MONGO__DB_NAME" with _ | d
      · rfl
      · rcases hr : env "DUMP__DIR" with _ | dir
        · rfl
        · rcases h with h | h | h <;> simp_all
  · intro u d dir hu hd hr
    unfold get_config
    rw [hu, hd, hr]

/-- Witness for C7: a fully set environment yields exactly its triple; an
environment missing the database name yields the error. -/
theorem c7_config_loader_contract_witness :
    get_config envFull = .ok ⟨"mongodb://localhost:27017", "shop", "out"⟩
    ∧ get_config envMissingDb = .error "Not all of the required env vars were set." :=
  ⟨(c7_config_loader_contract envFull).2 _ _ _ rfl rfl rfl,
   (c7_config_loader_contract envMissingDb).1 (Or.inr (Or.inl (by decide)))⟩

/-- C10: the presence check only tests that each variable is set, not that it
is non-empty: with all three variables set and at least one equal to the
empty string, the loader succeeds and returns the triple containing those
empty strings. -/
theorem c10_empty_values_accepted (env : Env) (u d dir : String)
    (hu : env "MONGO__URL" = some u) (hd : env "MONGO__DB_NAME" = some d)
    (hr : env "DUMP__DIR" = some dir) (_hempty : u = "" ∨ d = "" ∨ dir = "") :
    get_config env = .ok ⟨u, d, dir⟩ := by
  unfold get_config
  rw [hu, hd, hr]

/-- Witness for C10: all three variables set to the empty string. -/
theorem c10_empty_values_accepted_witness :
    get_config envEmptyVals = .ok ⟨"", "", ""⟩ :=
  c10_empty_values_accepted envEmptyVals "" "" "" rfl rfl rfl (Or.inl rfl)

/-- C8: every invocation of the handler returns 200/`OK` when configuration
loading and the full dump succeed and 500/`Internal Server Error` on any
exception (including configuration errors), never propagating the exception
and never exposing its contents. -/
theorem c8_handler_masks_errors (env : Env) (world : World) (now : UtcTime) :
    (handler env world now = ⟨200, "OK"⟩
      ∨ handler env world now = ⟨500, "Internal Server Error"⟩)
    ∧ (handler env world now = ⟨200, "OK"⟩ ↔
        ∃ cfg, get_config env = .ok cfg ∧ (dump_database cfg world now).err = none) := by
  rcases hg : get_config env with e | cfg
  · have hh : handler env world now = ⟨500, "Internal Server Error"⟩ := by
      unfold handler
      rw [hg]
    refine ⟨Or.inr hh, ?_, ?_⟩
    · intro h
      rw [hh] at h
      exact absurd h (by decide)
    · rintro ⟨cfg, hcfg, _⟩
      exact Except.noConfusion hcfg
  · rcases he : (dump_database cfg world now).err with _ | e2
    · have hh : handler env world now = ⟨200, "OK"⟩ := by
        unfold handler
        rw [hg]
        simp only [he]
      exact ⟨Or.inl hh, fun _ => ⟨cfg, rfl, he⟩, fun _ => hh⟩
    · have hh : handler env world now = ⟨500, "Internal Server Error"⟩ := by
        unfold handler
        rw [hg]
        simp only [he]
      refine ⟨Or.inr hh, ?_, ?_⟩
      · intro h
        rw [hh] at h
        exact absurd h (by decide)
      · rintro ⟨cfg2, hcfg2, he2⟩
        cases hcfg2
        rw [he] at he2
        exact Option.noConfusion he2

/-- C9: every entry added to the archive declares in its header exactly the
byte length of its body, the size being fixed on the TarInfo before the body
is streamed. -/
theorem c9_declared_sizes (cfg : Config) (world : World) (now : UtcTime) :
    ∀ e ∈ (dump_database cfg world now).entries, e.size = e.body.length := by
  intro e he
  rw [dump_database_entries] at he
  exact dumpAll_sizes _ _ _ e he

/-- Witness for C9 on a concrete run with one collection. -/
theorem c9_declared_sizes_witness :
    ((dump_database demoCfg demoWorld demoNow).entries.map TarEntry.size)
      = ((dump_database demoCfg demoWorld demoNow).entries.map fun e => e.body.length) :=
  List.map_congr_left fun e he => c9_declared_sizes demoCfg demoWorld demoNow e he

theorem dump_database_logs (cfg : Config) (world : World) (now : UtcTime) :
    (dump_database cfg world now).logs
      = LogLine.mk ("Starting database dump for database " ++ cfg.mongo__db_name ++ ".")
          "INFO" "main"
        :: (dumpAll cfg.mongo__db_name (world cfg.mongo__url cfg.mongo__db_name)
            (world cfg.mongo__url cfg.mongo__db_name).collections).2.2
        ++ (match (dumpAll cfg.mongo__db_name (world cfg.mongo__url cfg.mongo__db_name)
              (world cfg.mongo__url cfg.mongo__db_name).collections).2.1 with
            | none => [LogLine.mk ("Successfully completed database dump for database "
                ++ cfg.mongo__db_name ++ ".") "INFO" "main"]
            | some e => [LogLine.mk ("Error during database dump for database "
                ++ cfg.mongo__db_name ++ ": " ++ e) "ERROR" "main"]) := rfl

/-- C1 (code bug): the run produces exactly one archive, named
`<dbName>_backup_<UTC timestamp>.tar.gz` with the claimed timestamp format
and holding the claimed `dump/<dbName>/...` entries, but the program opens
the tar with mode `"w"`, which in CPython's `tarfile` writes an
uncompressed tar stream: the produced file is not gzip-compressed despite
its `.tar.gz` name. -/
theorem c1_archive_named_tgz_but_uncompressed :
    (dump_database demoCfg demoWorld demoNow).archivePath
        = "out/shop_backup_2024_01_02_03_04_05.tar.gz"
    ∧ (dump_database demoCfg demoWorld demoNow).entries.map TarEntry.name
        = ["dump/shop/orders.bson", "dump/shop/orders.metadata.json"]
    ∧ (dump_database demoCfg demoWorld demoNow).mode = "w"
    ∧ tarfileCompression (dump_database demoCfg demoWorld demoNow).mode = none := by
  refine ⟨by decide, by decide, rfl, rfl⟩

/-- C2 counterexample: a run over a database with collection `orders`
creates only the archive file; no file `<outputDir>/<dbName>/<relativeName>`
(such as `out/shop/orders.bson`) is ever created, even though both `orders`
artifacts are written — they go into the tar instead. -/
theorem c2_no_directory_files_counterexample :
    (dump_database demoCfg demoWorld demoNow).filesCreated
        = ["out/shop_backup_2024_01_02_03_04_05.tar.gz"]
    ∧ ((dump_database demoCfg demoWorld demoNow).filesCreated.contains
        "out/shop/orders.bson") = false
    ∧ (dump_database demoCfg demoWorld demoNow).entries.length = 2 := by
  refine ⟨by decide, by decide, by decide⟩

/-- C2 (amended): the system has a single sink, the archive sink: every
artifact is a named entry (`dump/<dbName>/<name>.bson` or
`dump/<dbName>/<name>.metadata.json`) of the one tar container, and the only
file a run creates is the archive itself. -/
theorem c2_single_archive_sink (cfg : Config) (world : World) (now : UtcTime) :
    (dump_database cfg world now).filesCreated
        = [(dump_database cfg world now).archivePath]
    ∧ ((dump_database cfg world now).entries.all fun e =>
        (world cfg.mongo__url cfg.mongo__db_name).collections.any fun n =>
          e.name == bsonEntryName cfg.mongo__db_name n
            || e.name == metaEntryName cfg.mongo__db_name n) = true := by
  refine ⟨rfl, ?_⟩
  rw [List.all_eq_true]
  intro e he
  rw [dump_database_entries] at he
  obtain ⟨n, hn, hname⟩ := dumpAll_entry_names _ _ _ e he
  rw [List.any_eq_true]
  refine ⟨n, hn, ?_⟩
  rcases hname with h | h <;> simp [h]

/-- C3: on a successful run, every listed collection yields exactly one data
entry and one metadata entry, produced in its own pass, and the archive
holds exactly `2 × (number of listed collections)` entries. -/
theorem c3_exactly_two_entries_per_collection (cfg : Config) (world : World)
    (now : UtcTime) (h : (dump_database cfg world now).err = none) :
    (dump_database cfg world now).entries
        = (((world cfg.mongo__url cfg.mongo__db_name).collections).map fun n =>
            (dump_collection n cfg.mongo__db_name
              (world cfg.mongo__url cfg.mongo__db_name)).entries).flatten
    ∧ (∀ n ∈ (world cfg.mongo__url cfg.mongo__db_name).collections,
        (dump_collection n cfg.mongo__db_name
            (world cfg.mongo__url cfg.mongo__db_name)).err = none
        ∧ (dump_collection n cfg.mongo__db_name
            (world cfg.mongo__url cfg.mongo__db_name)).entries.length = 2)
    ∧ (dump_database cfg world now).entries.length
        = 2 * ((world cfg.mongo__url cfg.mongo__db_name).collections).length := by
  rw [dump_database_err] at h
  obtain ⟨h1, h2⟩ := dumpAll_ok _ _ _ h
  refine ⟨by rw [dump_database_entries, h1], ?_, ?_⟩
  · intro n hn
    exact ⟨h2 n hn, dump_collection_ok_two _ _ _ (h2 n hn)⟩
  · rw [dump_database_entries, h1]
    exact flatten_length_two _ _ fun n hn => dump_collection_ok_two _ _ _ (h2 n hn)

/-- Witness for C3 on a successful one-collection run. -/
theorem c3_exactly_two_entries_per_collection_witness :
    (dump_database demoCfg demoWorld demoNow).entries.length
        = 2 * (demoContent.collections).length :=
  (c3_exactly_two_entries_per_collection demoCfg demoWorld demoNow (by decide)).2.2

/-- C4: the data artifact is exactly the concatenation of the BSON encodings
of the cursor's documents in iteration order — no filter, projection or
re-sorting — and decoding that artifact returns the same documents in the
same order the cursor produced them. -/
theorem c4_data_artifact_roundtrip (cname dbName : String) (c : DBContent)
    (docs : List BDoc) (hfind : c.find cname = .ok docs)
    (hwf : docs.all docWf = true) :
    (dump_collection cname dbName c).entries.head?
        = some ⟨bsonEntryName dbName cname, ((docs.map encodeDoc).flatten).length,
            (docs.map encodeDoc).flatten⟩
    ∧ decodeStream ((docs.map encodeDoc).flatten) = some docs := by
  constructor
  · unfold dump_collection
    rw [hfind]
    rcases c.listIndexes cname with e1 | idx
    · rfl
    · rcases c.options cname with e1 | opts
      · rfl
      · rcases c.listCollCmd cname with e1 | cmdRes
        · rfl
        · rfl
  · exact decodeStream_encode docs fun d hd => List.all_eq_true.mp hwf d hd

/-- Witness for C4 on a two-document collection. -/
theorem c4_data_artifact_roundtrip_witness :
    (dump_collection "orders" "shop" demoContent).entries.head?
        = some ⟨bsonEntryName "shop" "orders", ((demoDocs.map encodeDoc).flatten).length,
            (demoDocs.map encodeDoc).flatten⟩
    ∧ decodeStream ((demoDocs.map encodeDoc).flatten) = some demoDocs :=
  c4_data_artifact_roundtrip "orders" "shop" demoContent demoDocs rfl (by decide)

/-- C5: the metadata artifact is the serialized document
`{indexes, uuid, collectionName, type, options}` in which the indexes are
the collection's descriptors with `ns` removed, the type is the constant
`"collection"`, the options are the creation options, and the uuid is the
identifier from the first matching `listCollections` entry carrying one —
an explicit `null` (never an omitted field) when none is available. -/
theorem c5_metadata_shape (cname dbName : String) (c : DBContent)
    (docs : List BDoc) (idx : List (List (String × BVal)))
    (opts : List (String × BVal)) (cmdRes : Option (List CollInfo))
    (h1 : c.find cname = .ok docs) (h2 : c.listIndexes cname = .ok idx)
    (h3 : c.options cname = .ok opts) (h4 : c.listCollCmd cname = .ok cmdRes) :
    (dump_collection cname dbName c).entries
        = [⟨bsonEntryName dbName cname, ((docs.map encodeDoc).flatten).length,
            (docs.map encodeDoc).flatten⟩,
           ⟨metaEntryName dbName cname,
            (strBytes (renderMetadata
              ⟨idx.map stripNs, uuidFrom cname cmdRes, cname, "collection", opts⟩)).length,
            strBytes (renderMetadata
              ⟨idx.map stripNs, uuidFrom cname cmdRes, cname, "collection", opts⟩)⟩]
    ∧ (uuidFrom cname cmdRes = none → renderUuid (uuidFrom cname cmdRes) = "null")
    ∧ (∀ fb, cmdRes = some fb →
        (uuidFrom cname cmdRes = none ↔
          ∀ ci ∈ fb, ci.name = cname → ∀ ident, ci.info = some ident → ident.uuid = none))
    ∧ (cmdRes = none → uuidFrom cname cmdRes = none) := by
  refine ⟨?_, ?_, ?_, ?_⟩
  · unfold dump_collection
    rw [h1, h2, h3, h4]
  · intro h
    rw [h]
    rfl
  · intro fb hfb
    subst hfb
    exact extractUuid_eq_none_iff cname fb
  · intro h
    subst h
    rfl

/-- Witness for C5: an index with an `ns` field is stripped, the options and
the uuid from the second batch entry are recorded. -/
theorem c5_metadata_shape_witness :
    (dump_collection "users" "shop" metaContent).entries
        = [⟨bsonEntryName "shop" "users", ((([] : List BDoc).map encodeDoc).flatten).length,
            (([] : List BDoc).map encodeDoc).flatten⟩,
           ⟨metaEntryName "shop" "users",
            (strBytes (renderMetadata
              ⟨metaIdx.map stripNs, uuidFrom "users" (some metaBatch),
               "users", "collection", metaOpts⟩)).length,
            strBytes (renderMetadata
              ⟨metaIdx.map stripNs, uuidFrom "users" (some metaBatch),
               "users", "collection", metaOpts⟩)⟩] :=
  (c5_metadata_shape "users" "shop" metaContent [] metaIdx metaOpts (some metaBatch)
    rfl rfl rfl rfl).1

/-- C6: an exception while dumping one collection is logged with the
collection name, re-raised unchanged so the whole run aborts, the archive is
never finalized, and no collection after the failing one (in listing order)
has any artifact written. -/
theorem c6_failure_aborts_run (cfg : Config) (world : World) (now : UtcTime)
    (pre : List String) (cname : String) (post : List String) (e : Err)
    (hc : (world cfg.mongo__url cfg.mongo__db_name).collections = pre ++ cname :: post)
    (hpre : ∀ p ∈ pre,
      (dump_collection p cfg.mongo__db_name (world cfg.mongo__url cfg.mongo__db_name)).err
        = none)
    (hfail : (dump_collection cname cfg.mongo__db_name
        (world cfg.mongo__url cfg.mongo__db_name)).err = some e) :
    (dump_database cfg world now).err = some e
    ∧ (dump_database cfg world now).finalized = false
    ∧ (dump_database cfg world now).entries
        = (pre.map fun p => (dump_collection p cfg.mongo__db_name
            (world cfg.mongo__url cfg.mongo__db_name)).entries).flatten
          ++ (dump_collection cname cfg.mongo__db_name
            (world cfg.mongo__url cfg.mongo__db_name)).entries
    ∧ errLogLine cname e ∈ (dump_database cfg world now).logs := by
  obtain ⟨ha, hb, hlog⟩ := dumpAll_fail cfg.mongo__db_name
    (world cfg.mongo__url cfg.mongo__db_name) pre cname post e hpre hfail
  have herr : (dump_database cfg world now).err = some e := by
    rw [dump_database_err, hc]
    exact ha
  refine ⟨herr, ?_, ?_, ?_⟩
  · rw [dump_database_finalized, herr]
    rfl
  · rw [dump_database_entries, hc]
    exact hb
  · rw [dump_database_logs, hc]
    exact List.mem_cons_of_mem _ (List.mem_append_left _ hlog)

/-- Witness for C6: with collections `alpha, beta, gamma` and `beta` failing
at index listing, the run re-raises `boom` and the archive is unfinalized. -/
theorem c6_failure_aborts_run_witness :
    (dump_database demoCfg failWorld demoNow).err = some "boom"
    ∧ (dump_database demoCfg failWorld demoNow).finalized = false :=
  ⟨(c6_failure_aborts_run demoCfg failWorld demoNow ["alpha"] "beta" ["gamma"] "boom"
      rfl (by decide) (by decide)).1,
   (c6_failure_aborts_run demoCfg failWorld demoNow ["alpha"] "beta" ["gamma"] "boom"
      rfl (by decide) (by decide)).2.1⟩

end MongoBackup
